import Mathlib

/-!
Verification of the interactive terminal image selector
(`photo_terminal/tui.py`) against its design specification.

The development shallowly embeds the Python source:
 * `detect_graphics_protocol` embeds `TerminalCapabilities.detect_graphics_protocol`;
   environment variables are modelled as strings where the empty string plays the
   role of an unset (or set-but-empty) variable, matching Python's truthiness test
   `os.environ.get('TMUX')` and the `os.environ.get(k, '')` default.
 * `get_viu_preview` and the various argument builders embed the subprocess calls;
   a subprocess outcome is a `ProcResult` (completed process) or, one level up,
   an `InvokeResult` which also covers timeouts and spawn exceptions.
 * The render cache (a Python dict) is an association list with first-match lookup.
 * `SelState` embeds the mutable fields of `ImageSelector`; `runLoop` embeds the
   key-dispatch loop of `ImageSelector.run` over a list of input characters, and
   `select_images` embeds the entry point including its precondition checks.
-/

/-- The closed set of rendering protocol tags returned by detection. -/
inductive Protocol where
  | iterm
  | kitty
  | sixel
  | blocks
deriving DecidableEq, Repr

/-- The four environment variables consulted by detection.  The empty string
models an unset variable: Python tests `TMUX`/`STY` for truthiness (so unset and
`""` behave identically) and reads `TERM_PROGRAM`/`TERM` with default `''`. -/
structure Env where
  tmux : String
  sty : String
  term_program : String
  term : String

/-- `listHasInfix pat l` is true when `pat` occurs contiguously inside `l`. -/
def listHasInfix (pat : List Char) : List Char → Bool
  | [] => pat.isEmpty
  | c :: rest => pat.isPrefixOf (c :: rest) || listHasInfix pat rest

/-- Substring containment, embedding Python's `'pat' in s`. -/
def strContainsSub (s pat : String) : Bool :=
  listHasInfix pat.toList s.toList

/-- Embeds `TerminalCapabilities.detect_graphics_protocol` (tui.py lines 71-98):
multiplexer markers first, then `TERM_PROGRAM == 'iTerm.app'`, then Ghostty,
then Kitty, then Sixel, else blocks. -/
def detect_graphics_protocol (env : Env) : Protocol :=
  if env.tmux ≠ "" ∨ env.sty ≠ "" then .blocks
  else if env.term_program = "iTerm.app" then .iterm
  else if env.term_program = "ghostty" ∨ strContainsSub env.term "ghostty" then .kitty
  else if strContainsSub env.term "kitty" ∨ env.term = "xterm-kitty" then .kitty
  else if strContainsSub env.term "sixel" then .sixel
  else .blocks

/-- Embeds `TerminalCapabilities.supports_inline_images`. -/
def supports_inline_images (env : Env) : Bool :=
  detect_graphics_protocol env = .iterm ∨ detect_graphics_protocol env = .kitty ∨
    detect_graphics_protocol env = .sixel

/-- A completed subprocess: exit status and captured output streams. -/
structure ProcResult where
  returncode : Int
  stdout : String
  stderr : String
deriving DecidableEq, Repr

/-- Splits a character list at each newline, keeping empty pieces
(the semantics of `str.split` on a single separator). -/
def splitNl (cur : List Char) : List Char → List (List Char)
  | [] => [cur.reverse]
  | c :: rest => if c = '\n' then cur.reverse :: splitNl [] rest else splitNl (c :: cur) rest

/-- Embeds Python's `str.splitlines` restricted to `\n` separators:
`""` gives `[]`, a trailing newline does not produce a trailing empty line. -/
def pySplitLines (s : String) : List String :=
  match s.toList with
  | [] => []
  | cs =>
    let parts := splitNl [] cs
    let parts := if cs.getLast? = some '\n' then parts.dropLast else parts
    parts.map (fun l => String.mk l)

/-- Argument vector built by `get_viu_preview` (tui.py line 158):
block output at the given width, no height flag. -/
def get_viu_preview_args (image_path : String) (width : Nat) : List String :=
  ["viu", "-b", "-w", toString width, image_path]

/-- Embeds the post-processing of `get_viu_preview` (tui.py lines 165-177) on a
completed subprocess result: on exit 0, crop to `height` lines when a truthy
height was given and the output is longer; otherwise return an error banner. -/
def get_viu_preview (res : ProcResult) (height : Option Nat) : String :=
  if res.returncode = 0 then
    match height with
    | some h =>
      if h ≠ 0 then
        let lines := pySplitLines res.stdout
        if lines.length > h then String.intercalate "\n" (lines.take h)
        else res.stdout
      else res.stdout
    | none => res.stdout
  else "[Error rendering preview]\n" ++ res.stderr

/-- Argument vector built by `ImageSelector.render_with_blocks` (tui.py line 420):
block output with BOTH an explicit width and an explicit height flag. -/
def render_with_blocks_args (image_path : String) (image_width image_height : Nat) :
    List String :=
  ["viu", "-b", "-w", toString image_width, "-h", toString image_height, image_path]

/-- Argument vector built by `ImageSelector.render_with_graphics_protocol`
(tui.py line 531): native protocol output with explicit width and height. -/
def render_with_graphics_args (image_path : String) (image_width image_height : Nat) :
    List String :=
  ["viu", "-w", toString image_width, "-h", toString image_height, image_path]

/-- Outcome of one `subprocess.run` call: the process completed (with exit
status and output), the call raised `TimeoutExpired`, or it raised some other
exception carrying a message. -/
inductive InvokeResult where
  | completed (res : ProcResult)
  | timedOut
  | raised (msg : String)
deriving DecidableEq, Repr

/-- Python whitespace test used by `str.strip`. -/
def pyIsSpace (c : Char) : Bool :=
  c = ' ' ∨ c = '\n' ∨ c = '\t' ∨ c = '\r'

/-- Embeds Python's `str.strip()` (restricted to the common whitespace chars). -/
def pyStrip (s : String) : String :=
  String.mk (((s.toList.dropWhile pyIsSpace).reverse.dropWhile pyIsSpace).reverse)

/-- First-match association-list lookup, the model of a Python dict read.
The source uses one `_image_cache` dict; its keys carry a `blocks:` or
`graphics:` prefix, so the two key families never collide and are modelled
below as two separate maps of this shape. -/
def dictFind {α : Type} : List (String × α) → String → Option α
  | [], _ => none
  | (k', v) :: rest, k => if k' = k then some v else dictFind rest k

/-- Cache holding block-mode render results (lists of text lines). -/
abbrev BCache := List (String × List String)

/-- Cache holding graphics-mode render results (opaque output blobs). -/
abbrev GCache := List (String × String)

/-- The f-string cache key of the block path (tui.py lines 247 and 408). -/
def blocks_cache_key (image_path : String) (image_width image_height : Nat) : String :=
  "blocks:" ++ image_path ++ ":" ++ toString image_width ++ ":" ++ toString image_height

/-- The f-string cache key of the graphics path (tui.py lines 226 and 513). -/
def graphics_cache_key (image_path : String) (image_width image_height : Nat) : String :=
  "graphics:" ++ image_path ++ ":" ++ toString image_width ++ ":" ++ toString image_height

/-- Result of one pass through the cache logic of `render_with_blocks`:
the lines handed to the compositor, the cache afterwards, and how many
`subprocess.run` calls were made. -/
structure BStepOut where
  viu_lines : List String
  cache : BCache
  calls : Nat
deriving DecidableEq, Repr

/-- Embeds the cache lookup/populate logic of `ImageSelector.render_with_blocks`
(tui.py lines 408-433): cached key -> use stored lines, no subprocess call;
missing key and viu available -> one call; exit 0 -> split lines and insert;
non-zero exit -> empty lines, nothing inserted; an exception (the timeout
included, since `TimeoutExpired` is an `Exception`) -> an inline error line,
nothing inserted. -/
def blocksCacheStep (viuAvail : Bool) (inv : InvokeResult) (cache : BCache)
    (key : String) : BStepOut :=
  match dictFind cache key with
  | some v => ⟨v, cache, 0⟩
  | none =>
    if viuAvail then
      match inv with
      | .completed res =>
        if res.returncode = 0 then
          let ls := pySplitLines res.stdout
          ⟨ls, (key, ls) :: cache, 1⟩
        else ⟨[], cache, 1⟩
      | .timedOut => ⟨["[Preview error: timed out]"], cache, 1⟩
      | .raised msg => ⟨["[Preview error: " ++ msg ++ "]"], cache, 1⟩
    else ⟨[], cache, 0⟩

/-- Result of one pass through the cache logic of
`render_with_graphics_protocol`. -/
structure GStepOut where
  output : String
  cache : GCache
  calls : Nat
deriving DecidableEq, Repr

/-- Embeds the cache lookup/populate logic of
`ImageSelector.render_with_graphics_protocol` (tui.py lines 513-551):
cached key -> write stored blob, no call; missing key -> one call; exit 0 ->
insert and write stdout; non-zero exit -> inline error text, nothing inserted;
timeout or exception -> inline error text, nothing inserted. -/
def graphicsCacheStep (inv : InvokeResult) (cache : GCache) (key : String) : GStepOut :=
  match dictFind cache key with
  | some b => ⟨b, cache, 0⟩
  | none =>
    match inv with
    | .completed res =>
      if res.returncode = 0 then ⟨res.stdout, (key, res.stdout) :: cache, 1⟩
      else ⟨"\n[Preview error: " ++ pyStrip res.stderr ++ "]\n", cache, 1⟩
    | .timedOut => ⟨"[Preview timed out]", cache, 1⟩
    | .raised msg => ⟨"[Preview error: " ++ msg ++ "]", cache, 1⟩

/-- Embeds the block branch of `ImageSelector._preload_image` (tui.py lines
247-261): insert split lines only when the key is absent and the renderer
exits 0; every failure is swallowed without touching the cache. -/
def preloadBlocksStep (inv : InvokeResult) (cache : BCache) (key : String) :
    BCache × Nat :=
  match dictFind cache key with
  | some _ => (cache, 0)
  | none =>
    match inv with
    | .completed res =>
      if res.returncode = 0 then ((key, pySplitLines res.stdout) :: cache, 1)
      else (cache, 1)
    | .timedOut => (cache, 1)
    | .raised _ => (cache, 1)

/-- Embeds the graphics branch of `ImageSelector._preload_image` (tui.py lines
226-239): insert raw stdout only when the key is absent and the renderer
exits 0. -/
def preloadGraphicsStep (inv : InvokeResult) (cache : GCache) (key : String) :
    GCache × Nat :=
  match dictFind cache key with
  | some _ => (cache, 0)
  | none =>
    match inv with
    | .completed res =>
      if res.returncode = 0 then ((key, res.stdout) :: cache, 1)
      else (cache, 1)
    | .timedOut => (cache, 1)
    | .raised _ => (cache, 1)

/-- Accumulated effect of `n` repeated block-path lookups of the same key with
the same (deterministic) renderer outcome: final cache and total call count. -/
def repeatBlocksLookup (viuAvail : Bool) (inv : InvokeResult) (key : String) :
    Nat → BCache → BCache × Nat
  | 0, cache => (cache, 0)
  | n + 1, cache =>
    let out := blocksCacheStep viuAvail inv cache key
    let rec_out := repeatBlocksLookup viuAvail inv key n out.cache
    (rec_out.1, out.calls + rec_out.2)

/-- Accumulated effect of `n` repeated graphics-path lookups of the same key. -/
def repeatGraphicsLookup (inv : InvokeResult) (key : String) :
    Nat → GCache → GCache × Nat
  | 0, cache => (cache, 0)
  | n + 1, cache =>
    let out := graphicsCacheStep inv cache key
    let rec_out := repeatGraphicsLookup inv key n out.cache
    (rec_out.1, out.calls + rec_out.2)

/-- The mutable state of `ImageSelector`: the candidate list and the fields
`selected_indices` and `current_index` (tui.py lines 196-198). -/
structure SelState where
  images : List String
  selected_indices : Finset Nat
  current_index : Nat
deriving DecidableEq

/-- The state built by `ImageSelector.__init__`: empty selection, cursor 0. -/
def initState (images : List String) : SelState :=
  ⟨images, ∅, 0⟩

/-- Embeds `ImageSelector.toggle_selection` (tui.py lines 281-286). -/
def toggle_selection (st : SelState) : SelState :=
  if st.current_index ∈ st.selected_indices then
    { st with selected_indices := st.selected_indices.erase st.current_index }
  else
    { st with selected_indices := insert st.current_index st.selected_indices }

/-- Embeds `ImageSelector.move_up` (tui.py lines 288-291). -/
def move_up (st : SelState) : SelState :=
  if 0 < st.current_index then { st with current_index := st.current_index - 1 }
  else st

/-- Embeds `ImageSelector.move_down` (tui.py lines 293-296); the guard
`current_index < len(images) - 1` uses truncated subtraction, which agrees with
Python on every list (for an empty list both guards are false). -/
def move_down (st : SelState) : SelState :=
  if st.current_index < st.images.length - 1 then
    { st with current_index := st.current_index + 1 }
  else st

/-- The ascending-sorted selected indices, as built by
`ImageSelector.get_selected_images` via `sorted(self.selected_indices)`.
(Defined by lifting insertion sort over the underlying multiset -- insertion
sort of a list depends only on its multiset of elements; it agrees with
`Finset.sort` and, unlike it, evaluates by kernel reduction.) -/
def selected_sorted (st : SelState) : List Nat :=
  Quot.liftOn st.selected_indices.val (fun l => l.insertionSort (fun a b => a ≤ b))
    (fun l l' h =>
      List.eq_of_perm_of_sorted
        ((List.perm_insertionSort _ l).trans (h.trans (List.perm_insertionSort _ l').symm))
        (List.sorted_insertionSort _ l) (List.sorted_insertionSort _ l'))

/-- Embeds `ImageSelector.get_selected_images` (tui.py lines 298-305); the
loop invariant keeps every selected index in range, so the out-of-range
default of `getD` is never consulted on reachable states. -/
def get_selected_images (st : SelState) : List String :=
  (selected_sorted st).map (fun i => st.images.getD i "")

/-- Embeds the `y`/`Y` branch of `ImageSelector.run` (tui.py line 657):
`self.selected_indices = {self.current_index}`. -/
def quick_select_current (st : SelState) : SelState :=
  { st with selected_indices := {st.current_index} }

/-- Embeds the `a`/`A` branch of `ImageSelector.run` (tui.py lines 662-669):
deselect all when everything is selected, otherwise select all. -/
def toggle_select_all (st : SelState) : SelState :=
  if st.selected_indices.card = st.images.length then
    { st with selected_indices := ∅ }
  else
    { st with selected_indices := Finset.range st.images.length }

/-- Outcome of the key-dispatch loop of `ImageSelector.run`: `cancelled` is the
`return None` path (q/Q or an Escape not followed by `[`), `interrupted` is the
`raise KeyboardInterrupt` path (Ctrl+C), `confirmed` carries the returned
selection, and `exhausted` marks a modelled input stream that ran out while the
real loop would block on the next read. -/
inductive RunResult where
  | cancelled
  | interrupted
  | confirmed (selection : List String)
  | exhausted
deriving DecidableEq

/-- Embeds the key-dispatch loop of `ImageSelector.run` (tui.py lines 622-676)
over a stream of input characters: ESC starts a two-byte lookahead (`[` plus
`A`/`B` moves the cursor, any other second byte cancels), space toggles, Enter
confirms a non-empty selection and is ignored otherwise, y/Y quick-selects the
cursor and returns, a/A toggles select-all, q/Q cancels, Ctrl+C (0x03) raises
KeyboardInterrupt, and any other key is ignored. -/
def runLoop (st : SelState) : List Char → RunResult
  | [] => .exhausted
  | c :: rest =>
    if c = '\x1b' then
      match rest with
      | [] => .exhausted
      | c2 :: rest2 =>
        if c2 = '[' then
          match rest2 with
          | [] => .exhausted
          | a :: rest3 =>
            runLoop (if a = 'A' then move_up st else if a = 'B' then move_down st else st)
              rest3
        else .cancelled
    else if c = ' ' then runLoop (toggle_selection st) rest
    else if c = '\r' ∨ c = '\n' then
      if get_selected_images st = [] then runLoop st rest
      else .confirmed (get_selected_images st)
    else if c = 'y' ∨ c = 'Y' then .confirmed (get_selected_images (quick_select_current st))
    else if c = 'a' ∨ c = 'A' then runLoop (toggle_select_all st) rest
    else if c = 'q' ∨ c = 'Q' then .cancelled
    else if c = '\x03' then .interrupted
    else runLoop st rest

/-- A cursor move, the abstraction of one Up-arrow or Down-arrow dispatch. -/
inductive Move where
  | up
  | down
deriving DecidableEq

/-- Applies one cursor move, exactly as the arrow-key branches of the input
loop do (tui.py lines 631-636). -/
def applyMove : Move → SelState → SelState
  | .up, st => move_up st
  | .down, st => move_down st

/-- Applies a sequence of cursor moves, first move first. -/
def applyMoves : List Move → SelState → SelState
  | [], st => st
  | m :: ms, st => applyMoves ms (applyMove m st)

/-- The block-cache content invariant: every stored value is the split stdout
of a renderer run for that key that exited with status 0, where `oracle` gives
the (deterministic) outcome of invoking the renderer on a key. -/
def blocksCacheOK (oracle : String → InvokeResult) (cache : BCache) : Prop :=
  ∀ k v, dictFind cache k = some v →
    ∃ res, oracle k = .completed res ∧ res.returncode = 0 ∧ v = pySplitLines res.stdout

/-- The graphics-cache content invariant: every stored blob is the raw stdout
of a renderer run for that key that exited with status 0. -/
def graphicsCacheOK (oracle : String → InvokeResult) (cache : GCache) : Prop :=
  ∀ k v, dictFind cache k = some v →
    ∃ res, oracle k = .completed res ∧ res.returncode = 0 ∧ v = res.stdout

/-- Outcome of one call to the selector entry point. -/
inductive SessionOutcome where
  | precondEmptyImages
  | precondViuMissing
  | completed (r : RunResult)
deriving DecidableEq

/-- One session execution: whether `tty.setraw` was ever reached, and how the
session ended. -/
structure SessionExec where
  rawModeEntered : Bool
  outcome : SessionOutcome
deriving DecidableEq

/-- Embeds `select_images` (tui.py lines 689-728) composed with the entry
checks of `ImageSelector.run` (lines 601-613): the empty-input check runs
first and aborts before the selector exists; the viu-availability check runs
inside `run` before `tty.setraw`; only when both pass is raw mode entered and
the key loop executed. -/
def select_images (images : List String) (viuAvail : Bool) (keys : List Char) :
    SessionExec :=
  if images = [] then ⟨false, .precondEmptyImages⟩
  else if viuAvail then ⟨true, .completed (runLoop (initState images) keys)⟩
  else ⟨false, .precondViuMissing⟩

theorem selected_sorted_sorted (st : SelState) :
    List.Sorted (fun a b => a ≤ b) (selected_sorted st) := by
  rcases st with ⟨imgs, ⟨val, nodup⟩, cur⟩
  revert nodup
  induction val using Quot.inductionOn with
  | h l => exact fun _ => List.sorted_insertionSort _ l

theorem get_selected_images_quick (st : SelState) :
    get_selected_images (quick_select_current st) = [st.images.getD st.current_index ""] :=
  rfl

theorem runLoop_step_q (st : SelState) (rest : List Char) :
    runLoop st ('q' :: rest) = .cancelled := by
  rcases rest with _ | ⟨c2, _ | ⟨c3, rest3⟩⟩ <;> simp [runLoop]

theorem runLoop_step_Q (st : SelState) (rest : List Char) :
    runLoop st ('Q' :: rest) = .cancelled := by
  rcases rest with _ | ⟨c2, _ | ⟨c3, rest3⟩⟩ <;> simp [runLoop]

theorem runLoop_step_esc (st : SelState) (c : Char) (rest : List Char) (h : c ≠ '[') :
    runLoop st ('\x1b' :: c :: rest) = .cancelled := by
  rcases rest with _ | ⟨c2, rest2⟩ <;> simp [runLoop, h]

theorem runLoop_step_ctrlc (st : SelState) (rest : List Char) :
    runLoop st ('\x03' :: rest) = .interrupted := by
  rcases rest with _ | ⟨c2, _ | ⟨c3, rest3⟩⟩ <;> simp [runLoop]

theorem runLoop_step_space (st : SelState) (rest : List Char) :
    runLoop st (' ' :: rest) = runLoop (toggle_selection st) rest := by
  rcases rest with _ | ⟨c2, _ | ⟨c3, rest3⟩⟩ <;> simp [runLoop]

theorem runLoop_step_enter_empty (st : SelState) (rest : List Char)
    (h : get_selected_images st = []) :
    runLoop st ('\r' :: rest) = runLoop st rest ∧
      runLoop st ('\n' :: rest) = runLoop st rest := by
  constructor <;> rcases rest with _ | ⟨c2, _ | ⟨c3, rest3⟩⟩ <;> simp [runLoop, h]

theorem runLoop_step_enter_conf (st : SelState) (rest : List Char)
    (h : get_selected_images st ≠ []) :
    runLoop st ('\r' :: rest) = .confirmed (get_selected_images st) ∧
      runLoop st ('\n' :: rest) = .confirmed (get_selected_images st) := by
  constructor <;> rcases rest with _ | ⟨c2, _ | ⟨c3, rest3⟩⟩ <;> simp [runLoop, h]

theorem runLoop_step_y (st : SelState) (rest : List Char) :
    runLoop st ('y' :: rest) = .confirmed (get_selected_images (quick_select_current st)) := by
  rcases rest with _ | ⟨c2, _ | ⟨c3, rest3⟩⟩ <;> simp [runLoop]

theorem runLoop_step_Y (st : SelState) (rest : List Char) :
    runLoop st ('Y' :: rest) = .confirmed (get_selected_images (quick_select_current st)) := by
  rcases rest with _ | ⟨c2, _ | ⟨c3, rest3⟩⟩ <;> simp [runLoop]

theorem runLoop_step_a (st : SelState) (rest : List Char) :
    runLoop st ('a' :: rest) = runLoop (toggle_select_all st) rest := by
  rcases rest with _ | ⟨c2, _ | ⟨c3, rest3⟩⟩ <;> simp [runLoop]

theorem runLoop_step_A (st : SelState) (rest : List Char) :
    runLoop st ('A' :: rest) = runLoop (toggle_select_all st) rest := by
  rcases rest with _ | ⟨c2, _ | ⟨c3, rest3⟩⟩ <;> simp [runLoop]

theorem runLoop_step_arrow (st : SelState) (a : Char) (rest : List Char) :
    runLoop st ('\x1b' :: '[' :: a :: rest) =
      runLoop (if a = 'A' then move_up st else if a = 'B' then move_down st else st) rest := by
  simp [runLoop]

theorem runLoop_step_other (st : SelState) (c : Char) (rest : List Char)
    (h1 : c ≠ '\x1b') (h2 : c ≠ ' ') (h3 : c ≠ '\r') (h4 : c ≠ '\n') (h5 : c ≠ 'y')
    (h6 : c ≠ 'Y') (h7 : c ≠ 'a') (h8 : c ≠ 'A') (h9 : c ≠ 'q') (h10 : c ≠ 'Q')
    (h11 : c ≠ '\x03') :
    runLoop st (c :: rest) = runLoop st rest := by
  rcases rest with _ | ⟨c2, _ | ⟨c3, rest3⟩⟩ <;>
    simp [runLoop, h1, h2, h3, h4, h5, h6, h7, h8, h9, h10, h11]

theorem runLoop_confirmed_ne_nil_aux :
    ∀ (n : Nat) (input : List Char) (st : SelState) (l : List String),
      input.length ≤ n → runLoop st input = RunResult.confirmed l → l ≠ [] := by
  intro n
  induction n with
  | zero =>
    intro input st l hlen h
    have hnil : input = [] := List.eq_nil_of_length_eq_zero (Nat.le_zero.mp hlen)
    subst hnil
    simp [runLoop] at h
  | succ n ih =>
    intro input st l hlen h
    match input with
    | [] => simp [runLoop] at h
    | c :: rest =>
      by_cases hesc : c = '\x1b'
      · subst hesc
        match rest with
        | [] => simp [runLoop] at h
        | c2 :: rest2 =>
          by_cases hbr : c2 = '['
          · subst hbr
            match rest2 with
            | [] => simp [runLoop] at h
            | a :: rest3 =>
              rw [runLoop_step_arrow] at h
              refine ih rest3 _ l ?_ h
              simp at hlen
              omega
          · rw [runLoop_step_esc st c2 rest2 hbr] at h
            simp at h
      · by_cases hsp : c = ' '
        · subst hsp
          rw [runLoop_step_space] at h
          refine ih rest _ l ?_ h
          simp at hlen
          omega
        · by_cases hent : c = '\r' ∨ c = '\n'
          · by_cases hemp : get_selected_images st = []
            · have hstep := runLoop_step_enter_empty st rest hemp
              have hrec : runLoop st rest = RunResult.confirmed l := by
                rcases hent with rfl | rfl
                · rw [← hstep.1]; exact h
                · rw [← hstep.2]; exact h
              refine ih rest _ l ?_ hrec
              simp at hlen
              omega
            · have hstep := runLoop_step_enter_conf st rest hemp
              have hsel : RunResult.confirmed (get_selected_images st) =
                  RunResult.confirmed l := by
                rcases hent with rfl | rfl
                · rw [← hstep.1]; exact h
                · rw [← hstep.2]; exact h
              simp only [RunResult.confirmed.injEq] at hsel
              rw [← hsel]
              exact hemp
          · by_cases hy : c = 'y' ∨ c = 'Y'
            · have hstep : runLoop st (c :: rest) =
                  .confirmed (get_selected_images (quick_select_current st)) := by
                rcases hy with rfl | rfl
                · exact runLoop_step_y st rest
                · exact runLoop_step_Y st rest
              rw [hstep] at h
              simp only [RunResult.confirmed.injEq, get_selected_images_quick] at h
              rw [← h]
              simp
            · by_cases hta : c = 'a' ∨ c = 'A'
              · have hstep : runLoop st (c :: rest) = runLoop (toggle_select_all st) rest := by
                  rcases hta with rfl | rfl
                  · exact runLoop_step_a st rest
                  · exact runLoop_step_A st rest
                rw [hstep] at h
                refine ih rest _ l ?_ h
                simp at hlen
                omega
              · by_cases hq : c = 'q' ∨ c = 'Q'
                · have hstep : runLoop st (c :: rest) = .cancelled := by
                    rcases hq with rfl | rfl
                    · exact runLoop_step_q st rest
                    · exact runLoop_step_Q st rest
                  rw [hstep] at h
                  simp at h
                · by_cases hcc : c = '\x03'
                  · subst hcc
                    rw [runLoop_step_ctrlc] at h
                    simp at h
                  · have h3 : c ≠ '\r' := fun hc => hent (Or.inl hc)
                    have h4 : c ≠ '\n' := fun hc => hent (Or.inr hc)
                    have h5 : c ≠ 'y' := fun hc => hy (Or.inl hc)
                    have h6 : c ≠ 'Y' := fun hc => hy (Or.inr hc)
                    have h7 : c ≠ 'a' := fun hc => hta (Or.inl hc)
                    have h8 : c ≠ 'A' := fun hc => hta (Or.inr hc)
                    have h9 : c ≠ 'q' := fun hc => hq (Or.inl hc)
                    have h10 : c ≠ 'Q' := fun hc => hq (Or.inr hc)
                    rw [runLoop_step_other st c rest hesc hsp h3 h4 h5 h6 h7 h8 h9 h10 hcc] at h
                    refine ih rest _ l ?_ h
                    simp at hlen
                    omega

theorem runLoop_confirmed_ne_nil (st : SelState) (input : List Char) (l : List String)
    (h : runLoop st input = RunResult.confirmed l) : l ≠ [] :=
  runLoop_confirmed_ne_nil_aux input.length input st l le_rfl h

theorem applyMove_frame (m : Move) (st : SelState) :
    (applyMove m st).images = st.images ∧
      (applyMove m st).selected_indices = st.selected_indices := by
  cases m <;> simp only [applyMove, move_up, move_down] <;> split <;> simp

theorem applyMove_cursor_lt (m : Move) (st : SelState)
    (h : st.current_index < st.images.length) :
    (applyMove m st).current_index < st.images.length := by
  cases m <;> simp only [applyMove, move_up, move_down] <;> split <;> (try dsimp only) <;> omega


theorem applyMoves_inv (ms : List Move) (st : SelState)
    (h : st.current_index < st.images.length) :
    (applyMoves ms st).current_index < st.images.length ∧
      (applyMoves ms st).images = st.images ∧
      (applyMoves ms st).selected_indices = st.selected_indices := by
  induction ms generalizing st with
  | nil => simpa [applyMoves] using h
  | cons m ms ih =>
    have hf := applyMove_frame m st
    have hc := applyMove_cursor_lt m st h
    have := ih (applyMove m st) (by rw [hf.1]; exact hc)
    simpa [applyMoves, hf.1, hf.2] using this

/-- C5: for every nonempty candidate list and every sequence of up/down moves
starting from the initial state, the cursor stays in `[0, N-1]` while the
candidate list and selection are untouched; a move at either boundary is a
no-op, and single moves never change anything but the cursor. -/
theorem C5_cursor_clamped :
    (∀ (images : List String) (ms : List Move), images ≠ [] →
      (applyMoves ms (initState images)).current_index < images.length ∧
      (applyMoves ms (initState images)).images = images ∧
      (applyMoves ms (initState images)).selected_indices = ∅) ∧
    (∀ st : SelState, st.current_index = 0 → move_up st = st) ∧
    (∀ st : SelState, st.current_index = st.images.length - 1 → move_down st = st) ∧
    (∀ (m : Move) (st : SelState), (applyMove m st).images = st.images ∧
      (applyMove m st).selected_indices = st.selected_indices) := by
  refine ⟨?_, ?_, ?_, ?_⟩
  · intro images ms hne
    have h0 : (initState images).current_index < (initState images).images.length := by
      simp [initState]
      exact List.length_pos.mpr hne
    simpa [initState] using applyMoves_inv ms (initState images) h0
  · intro st h
    simp [move_up, h]
  · intro st h
    simp only [move_down]
    split
    · omega
    · rfl
  · intro m st
    exact applyMove_frame m st

/-- C5 witness: with two candidates, two down moves then an up move leave the
cursor at index 1 (inside `[0, 1]`), the image list and selection unchanged;
a `move_up` at cursor 0 is a no-op. -/
theorem C5_cursor_clamped_witness :
    ((applyMoves [Move.down, Move.down, Move.up] (initState ["a", "b"])).current_index < 2 ∧
      (applyMoves [Move.down, Move.down, Move.up] (initState ["a", "b"])).images = ["a", "b"] ∧
      (applyMoves [Move.down, Move.down, Move.up] (initState ["a", "b"])).selected_indices = ∅) ∧
    move_up (initState ["a", "b"]) = initState ["a", "b"] :=
  ⟨C5_cursor_clamped.1 ["a", "b"] [Move.down, Move.down, Move.up] (by decide),
    C5_cursor_clamped.2.1 (initState ["a", "b"]) rfl⟩

/-- C6: pressing `y` or `Y` immediately terminates the loop in the confirmed
state; the selection is replaced by exactly the singleton of the cursor index,
whatever was selected before, and the confirmed list is exactly that one
candidate. -/
theorem C6_quick_select_singleton (st : SelState) (rest : List Char) :
    runLoop st ('y' :: rest) =
      RunResult.confirmed (get_selected_images (quick_select_current st)) ∧
    runLoop st ('Y' :: rest) =
      RunResult.confirmed (get_selected_images (quick_select_current st)) ∧
    (quick_select_current st).selected_indices = {st.current_index} ∧
    get_selected_images (quick_select_current st) = [st.images.getD st.current_index ""] :=
  ⟨runLoop_step_y st rest, runLoop_step_Y st rest, rfl, get_selected_images_quick st⟩

/-- C7: `toggle_select_all` maps a fully-selected state to the empty selection
and any other state (empty or partial) to the full index set; from the empty
and from the full selection two calls return to the start, and a partial
selection always goes to select-all. -/
theorem C7_toggle_select_all (st : SelState) :
    (st.selected_indices.card = st.images.length →
      (toggle_select_all st).selected_indices = ∅) ∧
    (st.selected_indices.card ≠ st.images.length →
      (toggle_select_all st).selected_indices = Finset.range st.images.length) ∧
    (st.selected_indices = ∅ →
      (toggle_select_all st).selected_indices = Finset.range st.images.length ∧
      (toggle_select_all (toggle_select_all st)).selected_indices = ∅) ∧
    (st.selected_indices = Finset.range st.images.length →
      (toggle_select_all st).selected_indices = ∅ ∧
      (toggle_select_all (toggle_select_all st)).selected_indices =
        Finset.range st.images.length) ∧
    (st.selected_indices ⊆ Finset.range st.images.length →
      st.selected_indices ≠ Finset.range st.images.length →
      (toggle_select_all st).selected_indices = Finset.range st.images.length) := by
  have hsel : ∀ s : SelState, (toggle_select_all s).selected_indices =
      if s.selected_indices.card = s.images.length then ∅
      else Finset.range s.images.length := by
    intro s
    simp only [toggle_select_all]
    split <;> simp_all
  have himg : ∀ s : SelState, (toggle_select_all s).images = s.images := by
    intro s
    simp only [toggle_select_all]
    split <;> rfl
  refine ⟨fun h => by simp [hsel, h], fun h => by simp [hsel, h], ?_, ?_, ?_⟩
  · intro h
    by_cases hN : st.images.length = 0
    · have h1 : (toggle_select_all st).selected_indices = ∅ := by
        simp [hsel, h, hN]
      refine ⟨by rw [h1, hN, Finset.range_zero], ?_⟩
      rw [hsel, h1, himg, hN]
      simp
    · have h1 : (toggle_select_all st).selected_indices = Finset.range st.images.length := by
        rw [hsel, h]
        simp [if_neg (Ne.symm hN), hN]
      refine ⟨h1, ?_⟩
      rw [hsel, h1, himg]
      simp
  · intro h
    have h1 : (toggle_select_all st).selected_indices = ∅ := by
      simp [hsel, h]
    refine ⟨h1, ?_⟩
    by_cases hN : st.images.length = 0
    · rw [hsel, h1, himg]
      simp [hN]
    · rw [hsel, h1, himg]
      simp [if_neg (Ne.symm hN), hN]
  · intro hsub hne
    have hcard : st.selected_indices.card ≠ st.images.length := by
      intro hc
      exact hne (Finset.eq_of_subset_of_card_le hsub (by simp [hc]))
    simp [hsel, hcard]

/-- C7 witness: over two candidates with `{0}` selected (a partial selection),
one toggle selects all. -/
theorem C7_toggle_select_all_witness :
    (toggle_select_all ⟨["a", "b"], {0}, 0⟩).selected_indices = Finset.range 2 :=
  (C7_toggle_select_all ⟨["a", "b"], {0}, 0⟩).2.1 (by decide)

/-- C8: the confirmed output is produced from the ascending sort of the
selected index set, hence is in original order independent of toggle order;
concretely, over `[a, b, c]` both `Down Down Space a Enter` and
`Space Down Space Down Space Enter` confirm `[a, b, c]`. -/
theorem C8_ordered_output :
    (∀ st : SelState, List.Sorted (fun a b => a ≤ b) (selected_sorted st)) ∧
    runLoop (initState ["a", "b", "c"])
      ['\x1b', '[', 'B', '\x1b', '[', 'B', ' ', 'a', '\r'] =
      RunResult.confirmed ["a", "b", "c"] ∧
    runLoop (initState ["a", "b", "c"])
      [' ', '\x1b', '[', 'B', ' ', '\x1b', '[', 'B', ' ', '\r'] =
      RunResult.confirmed ["a", "b", "c"] := by
  exact ⟨selected_sorted_sorted, by decide, by decide⟩

/-- C1 counterexample: pressing Ctrl+C does not make `run` return the
cancelled signal; the loop raises KeyboardInterrupt instead (a distinct
outcome, converted to a cancellation message only by the caller). -/
theorem C1_cancel_confirm_counterexample :
    runLoop (initState ["a"]) ['\x03'] = RunResult.interrupted ∧
      RunResult.interrupted ≠ RunResult.cancelled :=
  ⟨by decide, by decide⟩

/-- C1 (amended): `run` returns the cancelled signal whenever the next key is
`q`/`Q` or an Escape followed by a non-`[` byte, while Ctrl+C raises
KeyboardInterrupt instead of returning; every confirmed outcome carries a
non-empty selection; Enter on an empty selection is a no-op that continues
browsing in the same state; and a key other than q/Q/Escape never cancels by
itself -- any cancellation after it arises from the remaining input. -/
theorem C1_cancel_confirm_outcomes :
    (∀ (st : SelState) (rest : List Char), runLoop st ('q' :: rest) = RunResult.cancelled) ∧
    (∀ (st : SelState) (rest : List Char), runLoop st ('Q' :: rest) = RunResult.cancelled) ∧
    (∀ (st : SelState) (c : Char) (rest : List Char), c ≠ '[' →
      runLoop st ('\x1b' :: c :: rest) = RunResult.cancelled) ∧
    (∀ (st : SelState) (rest : List Char),
      runLoop st ('\x03' :: rest) = RunResult.interrupted) ∧
    (∀ (st : SelState) (input : List Char) (l : List String),
      runLoop st input = RunResult.confirmed l → l ≠ []) ∧
    (∀ (st : SelState) (rest : List Char), get_selected_images st = [] →
      runLoop st ('\r' :: rest) = runLoop st rest ∧
        runLoop st ('\n' :: rest) = runLoop st rest) ∧
    (∀ (st : SelState) (c : Char) (rest : List Char), c ≠ 'q' → c ≠ 'Q' → c ≠ '\x1b' →
      runLoop st (c :: rest) = RunResult.cancelled →
        ∃ st', runLoop st' rest = RunResult.cancelled) := by
  refine ⟨runLoop_step_q, runLoop_step_Q, runLoop_step_esc, runLoop_step_ctrlc,
    runLoop_confirmed_ne_nil, runLoop_step_enter_empty, ?_⟩
  intro st c rest h9 h10 hesc h
  by_cases hsp : c = ' '
  · subst hsp
    rw [runLoop_step_space] at h
    exact ⟨_, h⟩
  · by_cases hent : c = '\r' ∨ c = '\n'
    · by_cases hemp : get_selected_images st = []
      · have hstep := runLoop_step_enter_empty st rest hemp
        rcases hent with rfl | rfl
        · rw [hstep.1] at h; exact ⟨st, h⟩
        · rw [hstep.2] at h; exact ⟨st, h⟩
      · have hstep := runLoop_step_enter_conf st rest hemp
        rcases hent with rfl | rfl
        · rw [hstep.1] at h; simp at h
        · rw [hstep.2] at h; simp at h
    · by_cases hy : c = 'y' ∨ c = 'Y'
      · have hstep : runLoop st (c :: rest) =
            .confirmed (get_selected_images (quick_select_current st)) := by
          rcases hy with rfl | rfl
          · exact runLoop_step_y st rest
          · exact runLoop_step_Y st rest
        rw [hstep] at h
        simp at h
      · by_cases hta : c = 'a' ∨ c = 'A'
        · have hstep : runLoop st (c :: rest) = runLoop (toggle_select_all st) rest := by
            rcases hta with rfl | rfl
            · exact runLoop_step_a st rest
            · exact runLoop_step_A st rest
          rw [hstep] at h
          exact ⟨_, h⟩
        · by_cases hcc : c = '\x03'
          · subst hcc
            rw [runLoop_step_ctrlc] at h
            simp at h
          · have h3 : c ≠ '\r' := fun hc => hent (Or.inl hc)
            have h4 : c ≠ '\n' := fun hc => hent (Or.inr hc)
            have h5 : c ≠ 'y' := fun hc => hy (Or.inl hc)
            have h6 : c ≠ 'Y' := fun hc => hy (Or.inr hc)
            have h7 : c ≠ 'a' := fun hc => hta (Or.inl hc)
            have h8 : c ≠ 'A' := fun hc => hta (Or.inr hc)
            rw [runLoop_step_other st c rest hesc hsp h3 h4 h5 h6 h7 h8 h9 h10 hcc] at h
            exact ⟨st, h⟩

/-- C1 witness: with one candidate and nothing selected, Enter is ignored and
the following `q` cancels. -/
theorem C1_cancel_confirm_outcomes_witness :
    runLoop (initState ["a"]) ['\r', 'q'] = RunResult.cancelled := by
  have hf := C1_cancel_confirm_outcomes.2.2.2.2.2.1 (initState ["a"]) ['q'] (by decide)
  exact hf.1.trans (C1_cancel_confirm_outcomes.1 (initState ["a"]) [])

/-- C2: detection follows the stated priority order: a non-empty multiplexer
marker forces blocks over everything; otherwise an exact iTerm2 program match
wins (even over Kitty markers); otherwise Ghostty markers, then Kitty markers,
then a Sixel substring, then the blocks fallback. -/
theorem C2_detect_priority (env : Env) :
    ((env.tmux ≠ "" ∨ env.sty ≠ "") → detect_graphics_protocol env = .blocks) ∧
    (env.tmux = "" → env.sty = "" →
      (env.term_program = "iTerm.app" → detect_graphics_protocol env = .iterm) ∧
      (env.term_program ≠ "iTerm.app" →
        ((env.term_program = "ghostty" ∨ strContainsSub env.term "ghostty" = true) →
          detect_graphics_protocol env = .kitty) ∧
        (env.term_program ≠ "ghostty" → strContainsSub env.term "ghostty" = false →
          ((strContainsSub env.term "kitty" = true ∨ env.term = "xterm-kitty") →
            detect_graphics_protocol env = .kitty) ∧
          (strContainsSub env.term "kitty" = false → env.term ≠ "xterm-kitty" →
            (strContainsSub env.term "sixel" = true →
              detect_graphics_protocol env = .sixel) ∧
            (strContainsSub env.term "sixel" = false →
              detect_graphics_protocol env = .blocks))))) := by
  constructor
  · intro h
    rcases h with h | h <;> simp [detect_graphics_protocol, h]
  · intro ht hs
    constructor
    · intro hp
      simp [detect_graphics_protocol, ht, hs, hp]
    · intro hp
      constructor
      · intro hg
        rcases hg with hg | hg <;> simp [detect_graphics_protocol, ht, hs, hp, hg]
      · intro hg1 hg2
        constructor
        · intro hk
          rcases hk with hk | hk <;>
            simp [detect_graphics_protocol, ht, hs, hp, hg1, hg2, hk]
        · intro hk1 hk2
          constructor
          · intro hx
            simp [detect_graphics_protocol, ht, hs, hp, hg1, hg2, hk1, hk2, hx]
          · intro hx1
            simp [detect_graphics_protocol, ht, hs, hp, hg1, hg2, hk1, hk2, hx1]

/-- C2 witness: with TMUX set, iTerm2 and Kitty markers are both overridden
to blocks; with TMUX clear, the same markers yield iterm. -/
theorem C2_detect_priority_witness :
    detect_graphics_protocol ⟨"1", "", "iTerm.app", "xterm-kitty"⟩ = Protocol.blocks ∧
      detect_graphics_protocol ⟨"", "", "iTerm.app", "xterm-kitty"⟩ = Protocol.iterm :=
  ⟨(C2_detect_priority _).1 (Or.inl (by decide)),
    ((C2_detect_priority _).2 rfl rfl).1 rfl⟩

/-- C3 counterexample: the session block renderer `render_with_blocks` does
pass an explicit `-h` height argument to the external binary, contradicting
the claim that block-mode renders never request an explicit height. -/
theorem C3_block_render_counterexample :
    "-h" ∈ render_with_blocks_args "img.jpg" 60 35 := by decide

/-- C3 (amended): the standalone preview helper `get_viu_preview` requests
block output at the given width with no height argument and truncates output
longer than `height` to its first `height` lines (shorter output is returned
unchanged); the in-session block renderer `render_with_blocks` instead passes
an explicit `-h` height to the binary. -/
theorem C3_block_render_contract (p : String) (w h : Nat) (res : ProcResult) :
    get_viu_preview_args p w = ["viu", "-b", "-w", toString w, p] ∧
    (res.returncode = 0 → 0 < h → h < (pySplitLines res.stdout).length →
      get_viu_preview res (some h) =
        String.intercalate "\n" ((pySplitLines res.stdout).take h)) ∧
    (res.returncode = 0 → 0 < h → (pySplitLines res.stdout).length ≤ h →
      get_viu_preview res (some h) = res.stdout) ∧
    "-h" ∈ render_with_blocks_args p w h ∧
    toString h ∈ render_with_blocks_args p w h := by
  refine ⟨rfl, ?_, ?_, ?_, ?_⟩
  · intro h0 hpos hlen
    simp [get_viu_preview, h0, hpos.ne', hlen]
  · intro h0 hpos hle
    simp [get_viu_preview, h0, hpos.ne', not_lt.mpr hle]
  · simp [render_with_blocks_args]
  · simp [render_with_blocks_args]

/-- C3 witness: a three-line render cropped to two lines. -/
theorem C3_block_render_contract_witness :
    get_viu_preview ⟨0, "l1\nl2\nl3\n", ""⟩ (some 2) = "l1\nl2" := by
  have h := (C3_block_render_contract "img.jpg" 60 2 ⟨0, "l1\nl2\nl3\n", ""⟩).2.1
    rfl (by decide) (by decide)
  exact h.trans (by decide)

theorem blocksCacheStep_hit (viuAvail : Bool) (inv : InvokeResult) (cache : BCache)
    (key : String) (v : List String) (h : dictFind cache key = some v) :
    blocksCacheStep viuAvail inv cache key = ⟨v, cache, 0⟩ := by
  simp [blocksCacheStep, h]

theorem graphicsCacheStep_hit (inv : InvokeResult) (cache : GCache)
    (key : String) (b : String) (h : dictFind cache key = some b) :
    graphicsCacheStep inv cache key = ⟨b, cache, 0⟩ := by
  simp [graphicsCacheStep, h]

theorem repeatBlocksLookup_hit (viuAvail : Bool) (inv : InvokeResult) (key : String)
    (n : Nat) (cache : BCache) (v : List String) (h : dictFind cache key = some v) :
    repeatBlocksLookup viuAvail inv key n cache = (cache, 0) := by
  induction n with
  | zero => simp [repeatBlocksLookup]
  | succ n ih => simp [repeatBlocksLookup, blocksCacheStep_hit viuAvail inv cache key v h, ih]

theorem repeatGraphicsLookup_hit (inv : InvokeResult) (key : String)
    (n : Nat) (cache : GCache) (b : String) (h : dictFind cache key = some b) :
    repeatGraphicsLookup inv key n cache = (cache, 0) := by
  induction n with
  | zero => simp [repeatGraphicsLookup]
  | succ n ih => simp [repeatGraphicsLookup, graphicsCacheStep_hit inv cache key b h, ih]

theorem dictFind_insert_self {α : Type} (cache : List (String × α)) (key : String)
    (v : α) : dictFind ((key, v) :: cache) key = some v := by
  simp [dictFind]

/-- C4 counterexample: with a renderer that exits non-zero, two lookups of the
same unchanged key perform two external invocations, not exactly one. -/
theorem C4_cache_single_call_counterexample :
    (repeatBlocksLookup true (InvokeResult.completed ⟨1, "", "err"⟩)
      (blocks_cache_key "img.jpg" 60 35) 2 []).2 ≠ 1 := by decide

/-- C4 (amended): a lookup whose key is present returns the stored value with
zero external invocations (both render paths); and when the key is absent and
the renderer invocation succeeds (exit status 0), N >= 1 repeated lookups of
the unchanged key perform exactly one invocation in total.  (A failed first
invocation caches nothing, so each repeat re-invokes; see the counterexample.) -/
theorem C4_cache_lookup (key : String) (cache : BCache) (gcache : GCache)
    (viuAvail : Bool) (inv : InvokeResult) (res : ProcResult) (v : List String)
    (b : String) (n : Nat) :
    (dictFind cache key = some v →
      blocksCacheStep viuAvail inv cache key = ⟨v, cache, 0⟩) ∧
    (dictFind gcache key = some b →
      graphicsCacheStep inv gcache key = ⟨b, gcache, 0⟩) ∧
    (dictFind cache key = none → res.returncode = 0 →
      (repeatBlocksLookup true (.completed res) key (n + 1) cache).2 = 1) ∧
    (dictFind gcache key = none → res.returncode = 0 →
      (repeatGraphicsLookup (.completed res) key (n + 1) gcache).2 = 1) := by
  refine ⟨blocksCacheStep_hit viuAvail inv cache key v,
    graphicsCacheStep_hit inv gcache key b, ?_, ?_⟩
  · intro habs h0
    have hstep : blocksCacheStep true (.completed res) cache key =
        ⟨pySplitLines res.stdout, (key, pySplitLines res.stdout) :: cache, 1⟩ := by
      simp [blocksCacheStep, habs, h0]
    simp [repeatBlocksLookup, hstep,
      repeatBlocksLookup_hit true (.completed res) key n _ _
        (dictFind_insert_self cache key (pySplitLines res.stdout))]
  · intro habs h0
    have hstep : graphicsCacheStep (.completed res) gcache key =
        ⟨res.stdout, (key, res.stdout) :: gcache, 1⟩ := by
      simp [graphicsCacheStep, habs, h0]
    simp [repeatGraphicsLookup, hstep,
      repeatGraphicsLookup_hit (.completed res) key n _ _
        (dictFind_insert_self gcache key res.stdout)]

/-- C4 witness: a successful block render looked up three times over an
initially empty cache costs exactly one invocation. -/
theorem C4_cache_lookup_witness :
    (repeatBlocksLookup true (InvokeResult.completed ⟨0, "x\ny\n", ""⟩)
      (blocks_cache_key "img.jpg" 60 35) 3 []).2 = 1 :=
  (C4_cache_lookup (blocks_cache_key "img.jpg" 60 35) [] [] true
    (InvokeResult.completed ⟨0, "x\ny\n", ""⟩) ⟨0, "x\ny\n", ""⟩ [] "" 2).2.2.1 rfl rfl

/-- C9: both fatal preconditions are decided before raw mode: an empty
candidate list aborts with the empty-input failure and raw mode never entered;
a missing renderer binary aborts with the missing-binary failure and raw mode
never entered; only when both preconditions hold does the session enter raw
mode and run the key loop. -/
theorem C9_preconditions (images : List String) (viuAvail : Bool) (keys : List Char) :
    (images = [] →
      select_images images viuAvail keys = ⟨false, .precondEmptyImages⟩) ∧
    (images ≠ [] → viuAvail = false →
      select_images images viuAvail keys = ⟨false, .precondViuMissing⟩) ∧
    ((images = [] ∨ viuAvail = false) →
      (select_images images viuAvail keys).rawModeEntered = false) ∧
    (images ≠ [] → viuAvail = true →
      select_images images viuAvail keys =
        ⟨true, .completed (runLoop (initState images) keys)⟩) := by
  refine ⟨fun h => by simp [select_images, h],
    fun h1 h2 => by simp [select_images, h1, h2], ?_,
    fun h1 h2 => by simp [select_images, h1, h2]⟩
  intro h
  rcases h with h | h
  · simp [select_images, h]
  · by_cases hi : images = [] <;> simp [select_images, hi, h]

/-- C9 witness: the empty list aborts with the empty-input failure; a missing
binary with a non-empty list aborts with the missing-binary failure; in both
executions raw mode is never entered. -/
theorem C9_preconditions_witness :
    select_images [] false [] = ⟨false, SessionOutcome.precondEmptyImages⟩ ∧
      select_images ["a"] false [] = ⟨false, SessionOutcome.precondViuMissing⟩ :=
  ⟨(C9_preconditions [] false []).1 rfl,
    (C9_preconditions ["a"] false []).2.1 (by decide) rfl⟩

theorem blocksCacheOK_insert (oracle : String → InvokeResult) (cache : BCache)
    (key : String) (res : ProcResult) (hres : oracle key = .completed res)
    (h0 : res.returncode = 0) (hOK : blocksCacheOK oracle cache) :
    blocksCacheOK oracle ((key, pySplitLines res.stdout) :: cache) := by
  intro k v h
  by_cases hk : key = k
  · subst hk
    simp [dictFind] at h
    exact ⟨res, hres, h0, h.symm⟩
  · simp [dictFind, hk] at h
    exact hOK k v h

theorem graphicsCacheOK_insert (oracle : String → InvokeResult) (cache : GCache)
    (key : String) (res : ProcResult) (hres : oracle key = .completed res)
    (h0 : res.returncode = 0) (hOK : graphicsCacheOK oracle cache) :
    graphicsCacheOK oracle ((key, res.stdout) :: cache) := by
  intro k v h
  by_cases hk : key = k
  · subst hk
    simp [dictFind] at h
    exact ⟨res, hres, h0, h.symm⟩
  · simp [dictFind, hk] at h
    exact hOK k v h

/-- C10: every value stored in the render cache comes from a renderer
invocation for its key that exited 0 -- the invariant is preserved by every
cache-touching step (the two renderers and both preload branches); a
completed invocation with non-zero exit inserts nothing under its key (and
with the key still absent, the next lookup invokes the renderer again); a
timeout or spawn exception likewise inserts nothing. -/
theorem C10_cache_only_successful (oracle : String → InvokeResult) (cache : BCache)
    (gcache : GCache) (key : String) (viuAvail : Bool) :
    (blocksCacheOK oracle cache →
      blocksCacheOK oracle (blocksCacheStep viuAvail (oracle key) cache key).cache ∧
      blocksCacheOK oracle (preloadBlocksStep (oracle key) cache key).1) ∧
    (graphicsCacheOK oracle gcache →
      graphicsCacheOK oracle (graphicsCacheStep (oracle key) gcache key).cache ∧
      graphicsCacheOK oracle (preloadGraphicsStep (oracle key) gcache key).1) ∧
    (∀ res, oracle key = .completed res → res.returncode ≠ 0 →
      (blocksCacheStep viuAvail (oracle key) cache key).cache = cache ∧
      (graphicsCacheStep (oracle key) gcache key).cache = gcache ∧
      (preloadBlocksStep (oracle key) cache key).1 = cache ∧
      (preloadGraphicsStep (oracle key) gcache key).1 = gcache ∧
      (dictFind cache key = none → viuAvail = true →
        (blocksCacheStep viuAvail (oracle key) cache key).calls = 1 ∧
        (blocksCacheStep viuAvail (oracle key)
            (blocksCacheStep viuAvail (oracle key) cache key).cache key).calls = 1)) ∧
    ((oracle key = .timedOut ∨ ∃ m, oracle key = .raised m) →
      (blocksCacheStep viuAvail (oracle key) cache key).cache = cache ∧
      (graphicsCacheStep (oracle key) gcache key).cache = gcache ∧
      (preloadBlocksStep (oracle key) cache key).1 = cache ∧
      (preloadGraphicsStep (oracle key) gcache key).1 = gcache) := by
  refine ⟨?_, ?_, ?_, ?_⟩
  · intro hOK
    constructor
    · rcases hfind : dictFind cache key with _ | v
      · rcases hres : oracle key with res | _ | msg
        · by_cases h0 : res.returncode = 0
          · cases viuAvail
            · simpa [blocksCacheStep, hfind, hres, h0] using hOK
            · simpa [blocksCacheStep, hfind, hres, h0] using
                blocksCacheOK_insert oracle cache key res hres h0 hOK
          · cases viuAvail <;> simpa [blocksCacheStep, hfind, hres, h0] using hOK
        · cases viuAvail <;> simpa [blocksCacheStep, hfind, hres] using hOK
        · cases viuAvail <;> simpa [blocksCacheStep, hfind, hres] using hOK
      · simpa [blocksCacheStep, hfind] using hOK
    · rcases hfind : dictFind cache key with _ | v
      · rcases hres : oracle key with res | _ | msg
        · by_cases h0 : res.returncode = 0
          · simpa [preloadBlocksStep, hfind, hres, h0] using
              blocksCacheOK_insert oracle cache key res hres h0 hOK
          · simpa [preloadBlocksStep, hfind, hres, h0] using hOK
        · simpa [preloadBlocksStep, hfind, hres] using hOK
        · simpa [preloadBlocksStep, hfind, hres] using hOK
      · simpa [preloadBlocksStep, hfind] using hOK
  · intro hOK
    constructor
    · rcases hfind : dictFind gcache key with _ | b
      · rcases hres : oracle key with res | _ | msg
        · by_cases h0 : res.returncode = 0
          · simpa [graphicsCacheStep, hfind, hres, h0] using
              graphicsCacheOK_insert oracle gcache key res hres h0 hOK
          · simpa [graphicsCacheStep, hfind, hres, h0] using hOK
        · simpa [graphicsCacheStep, hfind, hres] using hOK
        · simpa [graphicsCacheStep, hfind, hres] using hOK
      · simpa [graphicsCacheStep, hfind] using hOK
    · rcases hfind : dictFind gcache key with _ | b
      · rcases hres : oracle key with res | _ | msg
        · by_cases h0 : res.returncode = 0
          · simpa [preloadGraphicsStep, hfind, hres, h0] using
              graphicsCacheOK_insert oracle gcache key res hres h0 hOK
          · simpa [preloadGraphicsStep, hfind, hres, h0] using hOK
        · simpa [preloadGraphicsStep, hfind, hres] using hOK
        · simpa [preloadGraphicsStep, hfind, hres] using hOK
      · simpa [preloadGraphicsStep, hfind] using hOK
  · intro res hres h0
    refine ⟨?_, ?_, ?_, ?_, ?_⟩
    · rcases hfind : dictFind cache key with _ | v
      · cases hava : viuAvail <;> simp [blocksCacheStep, hfind, hres, h0]
      · simp [blocksCacheStep, hfind]
    · rcases hfind : dictFind gcache key with _ | b
      · simp [graphicsCacheStep, hfind, hres, h0]
      · simp [graphicsCacheStep, hfind]
    · rcases hfind : dictFind cache key with _ | v
      · simp [preloadBlocksStep, hfind, hres, h0]
      · simp [preloadBlocksStep, hfind]
    · rcases hfind : dictFind gcache key with _ | b
      · simp [preloadGraphicsStep, hfind, hres, h0]
      · simp [preloadGraphicsStep, hfind]
    · intro hfind hava
      subst hava
      have hstep : (blocksCacheStep true (oracle key) cache key).cache = cache ∧
          (blocksCacheStep true (oracle key) cache key).calls = 1 := by
        simp [blocksCacheStep, hfind, hres, h0]
      refine ⟨hstep.2, ?_⟩
      rw [hstep.1]
      simp [blocksCacheStep, hfind, hres, h0]
  · intro hfail
    refine ⟨?_, ?_, ?_, ?_⟩
    · rcases hfind : dictFind cache key with _ | v
      · rcases hfail with hres | ⟨m, hres⟩ <;>
          cases viuAvail <;> simp [blocksCacheStep, hfind, hres]
      · simp [blocksCacheStep, hfind]
    · rcases hfind : dictFind gcache key with _ | b
      · rcases hfail with hres | ⟨m, hres⟩ <;> simp [graphicsCacheStep, hfind, hres]
      · simp [graphicsCacheStep, hfind]
    · rcases hfind : dictFind cache key with _ | v
      · rcases hfail with hres | ⟨m, hres⟩ <;> simp [preloadBlocksStep, hfind, hres]
      · simp [preloadBlocksStep, hfind]
    · rcases hfind : dictFind gcache key with _ | b
      · rcases hfail with hres | ⟨m, hres⟩ <;> simp [preloadGraphicsStep, hfind, hres]
      · simp [preloadGraphicsStep, hfind]

/-- C10 witness: with a renderer that exits 1, a blocks-path miss leaves the
cache empty and costs one invocation, and the empty cache trivially satisfies
the successful-renders-only invariant afterwards. -/
theorem C10_cache_only_successful_witness :
    (blocksCacheStep true ((fun _ => InvokeResult.completed ⟨1, "", "e"⟩) "k") [] "k").cache =
      ([] : BCache) ∧
    (blocksCacheStep true ((fun _ => InvokeResult.completed ⟨1, "", "e"⟩) "k") [] "k").calls = 1 := by
  have h := (C10_cache_only_successful (fun _ => InvokeResult.completed ⟨1, "", "e"⟩)
    [] [] "k" true).2.2.1 ⟨1, "", "e"⟩ rfl (by decide)
  exact ⟨h.1, (h.2.2.2.2 rfl rfl).1⟩
